import Mathlib

/-!
Verification of the Indodax market-data relay (`src/main.py`).

The development shallowly embeds the fetch/broadcast cycle: the two-stage
fetch (`fetch_and_broadcast_data`), the per-symbol payload cache
(`current_data`), the subscriber registry (`connected_clients`) with its two
removal code paths, and the websocket replay loop (`websocket_endpoint`).

Python floats are modelled as rationals; the upstream JSON documents as the
inductive `JVal`; the Python exceptions that the code raises and catches as
the enumeration `PyExc`.  Network outcomes of one `session.get` call are
modelled as `Except HttpErr JVal`: either a transport-level failure or a
decoded JSON document.
-/

/-- Python exception classes occurring in `main.py`, identified up to the
granularity at which the code's `except` clauses distinguish them. -/
inductive PyExc where
  | clientError      -- aiohttp.ClientError (network errors, raise_for_status)
  | timeoutError     -- asyncio.TimeoutError (total-timeout expiry; NOT an aiohttp.ClientError)
  | jsonDecodeError  -- json.JSONDecodeError
  | typeError        -- TypeError
  | indexError       -- IndexError
  | valueError       -- ValueError
  | keyError         -- KeyError (set.remove / dict indexing on a missing element)
  | attributeError   -- AttributeError (.get on a non-dict)
deriving DecidableEq, Repr

/-- Failure modes of one `session.get(...)` + `raise_for_status()` + `.json()`
sequence.  `httpStatus` maps to `clientError` below (`raise_for_status`
raises `ClientResponseError`, a `ClientError` subclass); `timeout` is the
expiry of the `timeout=5` total timeout, which aiohttp surfaces as plain
`asyncio.TimeoutError` — not a `ClientError` — so no `except` clause of
`main.py` lines 99-104 or 139-146 catches it, only the bare
`except Exception` at line 147. -/
inductive HttpErr where
  | network
  | timeout
  | httpStatus
  | decode
deriving DecidableEq, Repr

/-- The exception class raised for each transport-level failure mode. -/
def excOfHttpErr : HttpErr → PyExc
  | .network => .clientError
  | .timeout => .timeoutError
  | .httpStatus => .clientError
  | .decode => .jsonDecodeError

/-- A decoded JSON document, as returned by `response.json()`. -/
inductive JVal where
  | null
  | bool (b : Bool)
  | num (q : ℚ)
  | str (s : String)
  | arr (l : List JVal)
  | obj (l : List (String × JVal))

/-- Python truthiness, as used by `if not data_ticker` and
`if current_data[symbol]`. -/
def JVal.truthy : JVal → Bool
  | .null => false
  | .bool b => b
  | .num q => q != 0
  | .str s => !s.isEmpty
  | .arr l => !l.isEmpty
  | .obj l => !l.isEmpty

/-- Value of one decimal digit character. -/
def digitVal (c : Char) : Option ℕ :=
  if c.isDigit then some (c.toNat - 48) else none

/-- Value of a digit run, `none` when some character is not a digit.
The empty run yields `some 0` (callers rule out the all-empty case). -/
def digitsVal (l : List Char) : Option ℕ :=
  l.foldl
    (fun acc c =>
      match acc, digitVal c with
      | some a, some d => some (a * 10 + d)
      | _, _ => none)
    (some 0)

/-- Models Python `float()` applied to a string, on the decimal-literal
strings the upstream API delivers (optional sign, integer digits, optional
fractional part).  Exponent forms, `inf`/`nan` and surrounding whitespace are
outside the modelled input space; a string that is not a decimal literal
fails, as `float()` does with `ValueError`. -/
def parseDecimal (s : String) : Option ℚ :=
  let cs := s.toList
  let signed : Bool × List Char :=
    match cs with
    | '-' :: rest => (true, rest)
    | '+' :: rest => (false, rest)
    | _ => (false, cs)
  let intPart := signed.2.takeWhile (· ≠ '.')
  let rest := signed.2.dropWhile (· ≠ '.')
  let sign : ℚ := if signed.1 then -1 else 1
  match rest with
  | [] =>
    if intPart.isEmpty then none
    else (digitsVal intPart).map (fun n => sign * (n : ℚ))
  | _ :: fracPart =>
    if intPart.isEmpty && fracPart.isEmpty then none
    else
      match digitsVal intPart, digitsVal fracPart with
      | some i, some f => some (sign * ((i : ℚ) + (f : ℚ) / (10 ^ fracPart.length : ℚ)))
      | _, _ => none

/-- Models Python `float(v)` on a decoded JSON value: numbers pass through,
strings are parsed (`ValueError` on failure), booleans coerce, and `None`,
lists and dicts raise `TypeError`. -/
def pyFloat : JVal → Except PyExc ℚ
  | .num q => .ok q
  | .str s =>
    match parseDecimal s with
    | some q => .ok q
    | none => .error .valueError
  | .bool b => .ok (if b then 1 else 0)
  | _ => .error .typeError

/-- Models Python `k in v`: key membership for dicts, element membership for
lists, substring test for strings, `TypeError` otherwise. -/
def pyIn (k : String) : JVal → Except PyExc Bool
  | .obj l => .ok (l.lookup k).isSome
  | .arr l => .ok (l.any fun v => match v with | .str s => k == s | _ => false)
  | .str s => .ok (decide ((s.splitOn k).length ≥ 2))
  | _ => .error .typeError

/-- Models Python `v[k]` with a string key: dict indexing (`KeyError` when
absent), `TypeError` on any non-dict. -/
def jIndex : JVal → String → Except PyExc JVal
  | .obj l, k =>
    match l.lookup k with
    | some v => .ok v
    | none => .error .keyError
  | _, _ => .error .typeError

/-- Models Python `v.get(k, default)`: defaulting dict lookup,
`AttributeError` when `v` is not a dict. -/
def jgetD : JVal → String → JVal → Except PyExc JVal
  | .obj l, k, dflt => .ok ((l.lookup k).getD dflt)
  | _, _, _ => .error .attributeError

/-- The numeric fields extracted from a ticker response
(`main.py` lines 65-69). -/
structure TickerNums where
  last : ℚ
  high : ℚ
  low : ℚ
  volume : ℚ
deriving DecidableEq, Repr

/-- The ticker stage of `fetch_and_broadcast_data` (`main.py` lines 56-69):
`raise_for_status`, `.json()`, the structure check
`if not data_ticker or 'ticker' not in data_ticker: return` (modelled as
`.ok none`), and the four `float(ticker.get(...))` extractions
(`vol_idr` preferred over `volume`, each field defaulting to `0.0`).
Raised exceptions propagate to the outermost handler. -/
def tickerStage (resp : Except HttpErr JVal) : Except PyExc (Option TickerNums) :=
  match resp with
  | .error e => .error (excOfHttpErr e)
  | .ok data =>
    if data.truthy = false then .ok none
    else
      match pyIn "ticker" data with
      | .error e => .error e
      | .ok false => .ok none
      | .ok true =>
        match jIndex data "ticker" with
        | .error e => .error e
        | .ok ticker => do
          let lastV ← jgetD ticker "last" (.num 0)
          let last ← pyFloat lastV
          let highV ← jgetD ticker "high" (.num 0)
          let high ← pyFloat highV
          let lowV ← jgetD ticker "low" (.num 0)
          let low ← pyFloat lowV
          let volInner ← jgetD ticker "volume" (.num 0)
          let volV ← jgetD ticker "vol_idr" volInner
          let volume ← pyFloat volV
          .ok (some ⟨last, high, low, volume⟩)

/-- Whether the ticker stage failed (transport error, malformed structure, or
a parse error on the numeric fields); in the source any of these prevents the
rest of the fetch body from running. -/
def tickerFailedB (resp : Except HttpErr JVal) : Bool :=
  match tickerStage resp with
  | .ok (some _) => false
  | _ => true

/-- The percentage-change computation (`main.py` lines 72-77). -/
def percentageChange (new_price high_price low_price : ℚ) : ℚ :=
  if new_price > 0 ∧ low_price > 0 then
    ((new_price - low_price) / low_price) * 100
  else if new_price > 0 ∧ high_price > 0 then
    ((new_price - high_price) / high_price) * 100
  else 0

/-- Nearest integer to `n / d` with ties to even, the rounding used by
Python's fixed-point string formatting. -/
def nearestTiesToEven (n : ℤ) (d : ℕ) : ℤ :=
  let q := Int.ediv n d
  let r := Int.emod n d
  if 2 * r < d then q
  else if (d : ℤ) < 2 * r then q + 1
  else if Int.emod q 2 = 0 then q else q + 1

/-- Models the Python format expression `f"{x:.2f}"` (`main.py` line 112). -/
def formatTwoDec (x : ℚ) : String :=
  let c := nearestTiesToEven (100 * x.num) x.den
  let sign := if c < 0 then "-" else ""
  let a := c.natAbs
  sign ++ toString (a / 100) ++ "." ++ (if a % 100 < 10 then "0" else "") ++ toString (a % 100)

/-- Number of order-book levels kept per side (`main.py` line 13). -/
def ORDER_BOOK_LIMIT : ℕ := 10

/-- Parsing of one depth entry, `[float(p), float(a)] for p, a in ...`
(`main.py` lines 90 and 95): unpacking requires a two-element sequence
(`ValueError` on wrong arity, `TypeError` on a non-sequence), then both
components go through `float`. -/
def parseOrder (v : JVal) : Except PyExc (ℚ × ℚ) :=
  match v with
  | .arr [pv, av] => do
    let p ← pyFloat pv
    let a ← pyFloat av
    .ok (p, a)
  | .arr _ => .error .valueError
  | _ => .error .typeError

/-- Descending-by-price order on order-book entries (`reverse=True`,
`key=lambda x: x[0]`). -/
def buyRel : (ℚ × ℚ) → (ℚ × ℚ) → Prop := fun a b => b.1 ≤ a.1

/-- Ascending-by-price order on order-book entries (`key=lambda x: x[0]`). -/
def sellRel : (ℚ × ℚ) → (ℚ × ℚ) → Prop := fun a b => a.1 ≤ b.1

instance : DecidableRel buyRel := fun a b => inferInstanceAs (Decidable (b.1 ≤ a.1))

instance : DecidableRel sellRel := fun a b => inferInstanceAs (Decidable (a.1 ≤ b.1))

instance : IsTotal (ℚ × ℚ) buyRel := ⟨fun a b => le_total b.1 a.1⟩

instance : IsTotal (ℚ × ℚ) sellRel := ⟨fun a b => le_total a.1 b.1⟩

instance : IsTrans (ℚ × ℚ) buyRel := ⟨fun _ _ _ h1 h2 => le_trans h2 h1⟩

instance : IsTrans (ℚ × ℚ) sellRel := ⟨fun _ _ _ h1 h2 => le_trans h1 h2⟩

/-- `sorted(..., key=lambda x: x[0], reverse=True)[:ORDER_BOOK_LIMIT]`
(`main.py` line 90).  Python's sort is stable, as is insertion sort. -/
def sortBuyOrders (l : List (ℚ × ℚ)) : List (ℚ × ℚ) :=
  (l.insertionSort buyRel).take ORDER_BOOK_LIMIT

/-- `sorted(..., key=lambda x: x[0])[:ORDER_BOOK_LIMIT]` (`main.py` line 95). -/
def sortSellOrders (l : List (ℚ × ℚ)) : List (ℚ × ℚ) :=
  (l.insertionSort sellRel).take ORDER_BOOK_LIMIT

/-- One side of the depth processing (`main.py` lines 89-92 for `buy` with
`sortBuyOrders`, lines 94-97 for `sell` with `sortSellOrders`):
`if k in data_depth and isinstance(data_depth[k], list)` parse-and-sort,
`else` log a warning and leave the side empty.  Raised exceptions propagate
to the handlers of lines 99-104. -/
def depthSide (data : JVal) (k : String) (sortAndTrim : List (ℚ × ℚ) → List (ℚ × ℚ)) :
    Except PyExc (List (ℚ × ℚ)) :=
  match pyIn k data with
  | .error e => .error e
  | .ok false => .ok []
  | .ok true =>
    match jIndex data k with
    | .error e => .error e
    | .ok (.arr entries) =>
      match entries.mapM parseOrder with
      | .error e => .error e
      | .ok parsed => .ok (sortAndTrim parsed)
    | .ok _ => .ok []

/-- Whether an exception class is caught by the depth-stage handlers
(`main.py` lines 99-104: `aiohttp.ClientError`, `json.JSONDecodeError`,
`(TypeError, IndexError, ValueError)`). -/
def depthHandled : PyExc → Bool
  | .clientError => true
  | .jsonDecodeError => true
  | .typeError => true
  | .indexError => true
  | .valueError => true
  | _ => false

/-- The two order-book sides of a snapshot. -/
structure OrderBooks where
  buy_orders : List (ℚ × ℚ)
  sell_orders : List (ℚ × ℚ)
deriving DecidableEq, Repr

/-- The depth stage of `fetch_and_broadcast_data` (`main.py` lines 80-104):
`buy_orders`/`sell_orders` start empty, the `buy` block runs before the
`sell` block, and a handled exception anywhere in the `try` body keeps the
assignments already made (a failure while processing `buy` therefore leaves
both sides empty, a failure while processing `sell` keeps the parsed
`buy_orders`).  Exceptions outside the handled classes propagate. -/
def depthStage (resp : Except HttpErr JVal) : Except PyExc OrderBooks :=
  match resp with
  | .error e =>
    if depthHandled (excOfHttpErr e) then .ok ⟨[], []⟩ else .error (excOfHttpErr e)
  | .ok data =>
    match depthSide data "buy" sortBuyOrders with
    | .error e => if depthHandled e then .ok ⟨[], []⟩ else .error e
    | .ok buys =>
      match depthSide data "sell" sortSellOrders with
      | .error e => if depthHandled e then .ok ⟨buys, []⟩ else .error e
      | .ok sells => .ok ⟨buys, sells⟩

/-- Depth responses whose failure the depth handlers absorb: a
network/HTTP-status/decode error (but not the total timeout, whose
`asyncio.TimeoutError` is caught by none of them), a non-object document, or
an object whose `buy` and `sell` fields are each missing or not lists. -/
def depthFailureB : Except HttpErr JVal → Bool
  | .error .timeout => false
  | .error _ => true
  | .ok (.obj l) =>
    (match l.lookup "buy" with
      | some (.arr _) => false
      | some _ => true
      | none => true) &&
    (match l.lookup "sell" with
      | some (.arr _) => false
      | some _ => true
      | none => true)
  | .ok _ => true

/-- The payload dict assembled for one symbol (`main.py` lines 107-119),
with its fields in insertion order. -/
structure Payload where
  symbol : String
  price : ℚ
  high_price : ℚ
  low_price : ℚ
  percentage_change : String
  volume_24h : ℚ
  buy_orders : List (ℚ × ℚ)
  sell_orders : List (ℚ × ℚ)
  timestamp : String
deriving DecidableEq, Repr

/-- Models `json.dumps` on the numeric values of the payload (Python float
repr): integral values render as `n.0`; non-integral values render from the
reduced numerator and denominator.  The exact text Python produces for
non-integral floats (shortest round-trip repr) is not modelled; no claim
depends on it, only on both send paths serializing one payload identically. -/
def renderQ (q : ℚ) : String :=
  if q.den = 1 then toString q.num ++ ".0"
  else toString q.num ++ "/" ++ toString q.den

/-- Serialization of one order-book side as a JSON array of pairs. -/
def renderOrders (l : List (ℚ × ℚ)) : String :=
  "[" ++ String.intercalate ", " (l.map (fun o => "[" ++ renderQ o.1 ++ ", " ++ renderQ o.2 ++ "]")) ++ "]"

/-- Models `json.dumps(payload)` (`main.py` line 126, and line 191 for the
replay path): default separators, keys in insertion order. -/
def jsonDumpsPayload (p : Payload) : String :=
  "\x7b\"symbol\": \"" ++ p.symbol ++ "\", \"price\": " ++ renderQ p.price ++
  ", \"high_price\": " ++ renderQ p.high_price ++
  ", \"low_price\": " ++ renderQ p.low_price ++
  ", \"percentage_change\": \"" ++ p.percentage_change ++
  "\", \"volume_24h\": " ++ renderQ p.volume_24h ++
  ", \"order_book\": \x7b\"buy_orders\": " ++ renderOrders p.buy_orders ++
  ", \"sell_orders\": " ++ renderOrders p.sell_orders ++
  "\x7d, \"timestamp\": \"" ++ p.timestamp ++ "\"\x7d"

/-- A subscriber connection handle (one element of `connected_clients`). -/
abbrev Client := ℕ

/-- Outcome of `await client_ws.send_text(message)` for one subscriber. -/
inductive SendOutcome where
  | ok
  | disconnect  -- raises WebSocketDisconnect
  | failure     -- raises any other Exception
deriving DecidableEq, Repr

/-- Models Python `set.remove` on the subscriber registry: raises `KeyError`
when the element is absent (`main.py` lines 134 and 137). -/
def setRemove (reg : List Client) (c : Client) : Except PyExc (List Client) :=
  if c ∈ reg then .ok (reg.erase c) else .error .keyError

/-- Outcome of the broadcast loop of `main.py` lines 129-137. -/
structure BroadcastResult where
  attempted : List Client  -- subscribers a send was attempted to, in order
  registry : List Client   -- `connected_clients` when the loop ends
  raised : Option PyExc    -- exception escaping the loop to the outer handler
deriving DecidableEq, Repr

/-- The broadcast loop (`main.py` lines 129-137): iterate over a snapshot
`list(connected_clients)`, attempt a send to each, and on
`WebSocketDisconnect` or any other `Exception` remove the subscriber with
`set.remove` and continue with the next one.  A `KeyError` from `set.remove`
itself is not caught inside the loop and aborts it. -/
def broadcastLoop (send : Client → SendOutcome) : List Client → List Client → BroadcastResult
  | [], reg => ⟨[], reg, none⟩
  | c :: rest, reg =>
    match send c with
    | .ok =>
      let r := broadcastLoop send rest reg
      ⟨c :: r.attempted, r.registry, r.raised⟩
    | _ =>
      match setRemove reg c with
      | .ok regNext =>
        let r := broadcastLoop send rest regNext
        ⟨c :: r.attempted, r.registry, r.raised⟩
      | .error e => ⟨[c], reg, some e⟩

/-- The explicit disconnect path (`main.py` lines 205-209): the `finally`
block checks membership before removing, so it never raises. -/
def disconnectCleanup (reg : List Client) (c : Client) : List Client :=
  if c ∈ reg then reg.erase c else reg

/-- The upstream responses and clock reading consumed by one
`fetch_and_broadcast_data` call. -/
structure FetchInput where
  tickerResp : Except HttpErr JVal
  depthResp : Except HttpErr JVal
  now : String  -- datetime.datetime.now().isoformat()

/-- Externally visible effects of one `fetch_and_broadcast_data` call:
the cache write of line 120 (if reached), the serialized message of
line 126 (if reached), and the broadcast loop's outcome. -/
structure FetchEffects where
  cacheUpdate : Option Payload
  message : Option String
  attempted : List Client
  registry : List Client
deriving DecidableEq, Repr

/-- The payload dict literal of `main.py` lines 107-119. -/
def assemblePayload (symbol : String) (t : TickerNums) (ob : OrderBooks) (now : String) : Payload :=
  { symbol := symbol
    price := t.last
    high_price := t.high
    low_price := t.low
    percentage_change := formatTwoDec (percentageChange t.last t.high t.low)
    volume_24h := t.volume
    buy_orders := ob.buy_orders
    sell_orders := ob.sell_orders
    timestamp := now }

/-- One `fetch_and_broadcast_data(session, symbol)` call (`main.py`
lines 45-148): the ticker stage (any failure or early return reaches line 148
or line 62 without touching cache or subscribers), the depth stage, payload
assembly, the cache write, and the broadcast loop over a snapshot of the
registry.  The outermost handlers (lines 139-148) absorb every exception, so
the call itself always returns. -/
def fetch_and_broadcast_data (inp : FetchInput) (symbol : String)
    (send : Client → SendOutcome) (reg : List Client) : FetchEffects :=
  match tickerStage inp.tickerResp with
  | .error _ => ⟨none, none, [], reg⟩
  | .ok none => ⟨none, none, [], reg⟩
  | .ok (some t) =>
    match depthStage inp.depthResp with
    | .error _ => ⟨none, none, [], reg⟩
    | .ok ob =>
      let payload := assemblePayload symbol t ob inp.now
      let r := broadcastLoop send reg reg
      ⟨some payload, some (jsonDumpsPayload payload), r.attempted, r.registry⟩

/-- The fixed list of monitored pairs (`main.py` lines 16-25). -/
def CURRENCY_PAIRS : List String :=
  ["BTC/IDR", "USDT/IDR", "ETH/IDR", "DOGE/IDR", "XRP/IDR", "ETC/IDR", "ADA/IDR", "SOL/IDR"]

/-- The `current_data` cache, an insertion-ordered dict from symbol to its
last payload; `none` models the initial empty dict `{}`. -/
abbrev Cache := List (String × Option Payload)

/-- `current_data = {symbol: {} for symbol in CURRENCY_PAIRS}`
(`main.py` line 28). -/
def initCache : Cache := CURRENCY_PAIRS.map (fun s => (s, none))

/-- Python dict assignment `d[k] = v`: replace in place when the key exists,
append otherwise. -/
def dictSet (c : Cache) (k : String) (v : Option Payload) : Cache :=
  if (c.lookup k).isSome then c.map (fun kv => if kv.1 = k then (k, v) else kv)
  else c ++ [(k, v)]

/-- The key list of the cache. -/
def cacheKeys (c : Cache) : List String := c.map (·.1)

/-- A sequence of per-symbol cache writes `current_data[symbol] = payload`
(`main.py` line 120), one per fetch whose ticker stage succeeded. -/
def applyUpdates (c : Cache) (us : List (String × Payload)) : Cache :=
  us.foldl (fun acc u => dictSet acc u.1 (some u.2)) c

/-- One iteration of the replay loop (`main.py` lines 189-191):
`current_data[symbol]` (raising `KeyError` on a missing key), the truthiness
test skipping symbols still holding the empty dict, and
`json.dumps(current_data[symbol])` for the rest. -/
def replayStep (c : Cache) (s : String) : Except PyExc (Option String) :=
  match c.lookup s with
  | none => .error .keyError
  | some v => .ok (v.map jsonDumpsPayload)

/-- The replay loop over a symbol list, in order. -/
def replayMessagesFrom (c : Cache) : List String → Except PyExc (List String)
  | [] => .ok []
  | s :: rest =>
    match replayStep c s with
    | .error e => .error e
    | .ok m =>
      match replayMessagesFrom c rest with
      | .error e => .error e
      | .ok ms => .ok (m.toList ++ ms)

/-- The messages the replay loop of `websocket_endpoint` sends to a freshly
accepted connection (`main.py` lines 189-191). -/
def replayMessages (c : Cache) : Except PyExc (List String) :=
  replayMessagesFrom c CURRENCY_PAIRS

/-- An interleaving of two message streams: `Interleaving ms live trace`
holds when `trace` contains exactly the elements of `ms` and of `live`, each
stream's internal order preserved. -/
inductive Interleaving : List String → List String → List String → Prop where
  | nil : Interleaving [] [] []
  | replay (m : String) {ms live trace : List String} :
      Interleaving ms live trace → Interleaving (m :: ms) live (m :: trace)
  | live (m : String) {ms live trace : List String} :
      Interleaving ms live trace → Interleaving ms (m :: live) (m :: trace)

/-- The possible message traces a new subscriber receives from
`websocket_endpoint` while its replay runs: the connection is added to
`connected_clients` at `main.py` line 185 *before* the replay loop of
lines 189-191, and every `send_text` is an await point, so the messages a
concurrent broadcast delivers to the already-registered client (`live`, in
broadcast order) may interleave anywhere among the replay messages, which
themselves arrive in configured-symbol order. -/
def websocketEndpointTrace (c : Cache) (live trace : List String) : Prop :=
  ∃ ms, replayMessages c = .ok ms ∧ Interleaving ms live trace

deriving instance DecidableEq for Except

theorem mem_erase_self_of_nodup {l : List Client} {c : Client} (h : l.Nodup) :
    c ∉ l.erase c := fun hc => ((List.Nodup.mem_erase_iff h).mp hc).1 rfl

/-- C2 counterexample: when a subscriber fails a mid-broadcast send after its
explicit disconnect path has already removed it from the registry, the
Broadcaster-side `connected_clients.remove` is applied to an absent element
and raises `KeyError` — so the claim that neither removal raises is false. -/
theorem broadcaster_removal_of_absent_raises :
    disconnectCleanup [0] 0 = [] ∧
    setRemove (disconnectCleanup [0] 0) 0 = .error .keyError ∧
    (broadcastLoop (fun _ => .disconnect) [0] (disconnectCleanup [0] 0)).raised =
      some .keyError := by
  refine ⟨by decide, by decide, by decide⟩

/-- C2 (amended): the explicit-disconnect removal checks membership first, so
it never raises and is idempotent, and after it the subscriber is gone; the
Broadcaster-side removal succeeds when the subscriber is still registered but
raises `KeyError` when the explicit path already removed it — in that
interleaving the `KeyError` escapes the broadcast loop (to be absorbed by the
fetch-level `except Exception`), and the registry still ends up without the
subscriber, removed exactly once. -/
theorem removal_paths_idempotence (reg : List Client) (c : Client)
    (hmem : c ∈ reg) (hnd : reg.Nodup) :
    disconnectCleanup reg c = reg.erase c ∧
    c ∉ reg.erase c ∧
    disconnectCleanup (disconnectCleanup reg c) c = disconnectCleanup reg c ∧
    setRemove reg c = .ok (reg.erase c) ∧
    setRemove (disconnectCleanup reg c) c = .error .keyError ∧
    (∀ send : Client → SendOutcome, send c ≠ .ok →
      (broadcastLoop send [c] (disconnectCleanup reg c)).raised = some .keyError ∧
      c ∉ (broadcastLoop send [c] (disconnectCleanup reg c)).registry) := by
  have he : disconnectCleanup reg c = reg.erase c := if_pos hmem
  have hne : c ∉ reg.erase c := mem_erase_self_of_nodup hnd
  refine ⟨he, hne, ?_, ?_, ?_, ?_⟩
  · rw [he]; exact if_neg hne
  · simp [setRemove, hmem]
  · rw [he]; simp [setRemove, hne]
  · intro send hsend
    rw [he]
    rcases hc : send c with _ | _ | _
    · exact absurd hc hsend
    · simp [broadcastLoop, hc, setRemove, hne]
    · simp [broadcastLoop, hc, setRemove, hne]

/-- C6: within one publish over a registry snapshot, a delivery failure
removes only that subscriber, the loop attempts delivery to every subscriber
of the snapshot exactly once (no retry, no abort), and no exception escapes —
provided each snapshot subscriber is still registered when reached, which
holds whenever no concurrent removal interferes. -/
theorem broadcast_failure_isolated (send : Client → SendOutcome)
    (snapshot reg : List Client) (h1 : snapshot.Nodup)
    (h2 : ∀ c ∈ snapshot, c ∈ reg) (h3 : reg.Nodup) :
    (broadcastLoop send snapshot reg).raised = none ∧
    (broadcastLoop send snapshot reg).attempted = snapshot ∧
    (broadcastLoop send snapshot reg).registry =
      reg.filter (fun c => decide (c ∉ snapshot ∨ send c = .ok)) := by
  induction snapshot generalizing reg with
  | nil =>
    exact ⟨rfl, rfl, (List.filter_eq_self.mpr fun c _ => by simp).symm⟩
  | cons a rest ih =>
    obtain ⟨ha, hrest⟩ := List.nodup_cons.mp h1
    have haReg : a ∈ reg := h2 a (List.mem_cons_self a rest)
    have hsub : ∀ c ∈ rest, c ∈ reg := fun c hc => h2 c (List.mem_cons_of_mem a hc)
    rcases hsendA : send a with _ | _ | _
    · have ihr := ih reg hrest hsub h3
      refine ⟨?_, ?_, ?_⟩
      · simp [broadcastLoop, hsendA, ihr.1]
      · simp [broadcastLoop, hsendA, ihr.2.1]
      · simp only [broadcastLoop, hsendA]
        rw [ihr.2.2]
        apply List.filter_congr
        intro c _
        by_cases hca : c = a
        · subst hca
          simp [hsendA, ha]
        · simp [List.mem_cons, hca]
    all_goals {
      have hsr : setRemove reg a = .ok (reg.erase a) := by simp [setRemove, haReg]
      have hsub1 : ∀ c ∈ rest, c ∈ reg.erase a := fun c hc =>
        (List.Nodup.mem_erase_iff h3).mpr ⟨fun hca => ha (hca ▸ hc), hsub c hc⟩
      have ihr := ih (reg.erase a) hrest hsub1 (h3.erase a)
      refine ⟨?_, ?_, ?_⟩
      · simp [broadcastLoop, hsendA, hsr, ihr.1]
      · simp [broadcastLoop, hsendA, hsr, ihr.2.1]
      · simp only [broadcastLoop, hsendA, hsr]
        rw [ihr.2.2, List.Nodup.erase_eq_filter h3, List.filter_filter]
        apply List.filter_congr
        intro c _
        by_cases hca : c = a
        · subst hca
          simp [hsendA]
        · by_cases hM : c ∈ rest <;> by_cases hP : send c = SendOutcome.ok <;>
            simp [List.mem_cons, hca, hM, hP]
    }

/-- C6 witness: a three-subscriber snapshot where the middle one disconnects
mid-broadcast; all three are attempted, nothing escapes, and only the failed
subscriber is removed. -/
theorem broadcast_failure_isolated_witness :
    (broadcastLoop (fun c => if c = 1 then SendOutcome.disconnect else .ok)
        [0, 1, 2] [0, 1, 2]).raised = none ∧
    (broadcastLoop (fun c => if c = 1 then SendOutcome.disconnect else .ok)
        [0, 1, 2] [0, 1, 2]).attempted = [0, 1, 2] ∧
    (broadcastLoop (fun c => if c = 1 then SendOutcome.disconnect else .ok)
        [0, 1, 2] [0, 1, 2]).registry = [0, 2] := by
  have h := broadcast_failure_isolated (fun c => if c = 1 then SendOutcome.disconnect else .ok)
    [0, 1, 2] [0, 1, 2] (by decide) (by decide) (by decide)
  exact ⟨h.1, h.2.1, h.2.2.trans (by decide)⟩

/-- C2 witness for the amended theorem: the singleton registry, with the
subscriber both disconnecting explicitly and failing the broadcast send. -/
theorem removal_paths_idempotence_witness :
    disconnectCleanup [0] 0 = List.erase [0] 0 ∧
    (0 : Client) ∉ List.erase [0] 0 ∧
    disconnectCleanup (disconnectCleanup [0] 0) 0 = disconnectCleanup [0] 0 ∧
    setRemove [0] 0 = .ok (List.erase [0] 0) :=
  have h := removal_paths_idempotence [0] 0 (by decide) (by decide)
  ⟨h.1, h.2.1, h.2.2.1, h.2.2.2.1⟩

/-- C3: whenever the ticker stage fails — transport/timeout error, non-2xx
status, JSON decode error, falsy or `ticker`-less document, or a numeric
parse failure — the fetch for that symbol performs no cache write, sends no
message, attempts no delivery, and leaves the registry exactly as it was.
The last three conjuncts verify that the enumerated structural failures
indeed make the ticker stage fail. -/
theorem ticker_failure_no_update_no_publish (inp : FetchInput) (symbol : String)
    (send : Client → SendOutcome) (reg : List Client)
    (h : tickerFailedB inp.tickerResp = true) :
    fetch_and_broadcast_data inp symbol send reg = ⟨none, none, [], reg⟩ ∧
    (∀ e, tickerFailedB (.error e) = true) ∧
    (∀ d : JVal, d.truthy = false → tickerFailedB (.ok d) = true) ∧
    (∀ d : JVal, pyIn "ticker" d = .ok false → tickerFailedB (.ok d) = true) := by
  refine ⟨?_, ?_, ?_, ?_⟩
  · rcases hts : tickerStage inp.tickerResp with e | o
    · simp [fetch_and_broadcast_data, hts]
    · rcases o with _ | t
      · simp [fetch_and_broadcast_data, hts]
      · rw [tickerFailedB, hts] at h
        exact absurd h (by simp)
  · intro e
    simp [tickerFailedB, tickerStage]
  · intro d hd
    simp [tickerFailedB, tickerStage, hd]
  · intro d hd
    cases ht : d.truthy
    · simp [tickerFailedB, tickerStage, ht]
    · simp [tickerFailedB, tickerStage, ht, hd]

/-- C3 witness: a ticker document whose `last` field is not numeric
(`float` raises `ValueError`); the fetch leaves cache, messages and the
registry untouched. -/
theorem ticker_failure_no_update_no_publish_witness :
    fetch_and_broadcast_data
      ⟨.ok (.obj [("ticker", .obj [("last", .str "abc")])]), .ok (.obj []), "T"⟩
      "BTC/IDR" (fun _ => .ok) [5] = ⟨none, none, [], [5]⟩ :=
  (ticker_failure_no_update_no_publish
    ⟨.ok (.obj [("ticker", .obj [("last", .str "abc")])]), .ok (.obj []), "T"⟩
    "BTC/IDR" (fun _ => .ok) [5] (by decide)).1

theorem sortBuyOrders_sorted (l : List (ℚ × ℚ)) :
    List.Sorted buyRel (sortBuyOrders l) :=
  List.Pairwise.sublist (List.take_sublist _ _) (List.sorted_insertionSort buyRel l)

theorem sortSellOrders_sorted (l : List (ℚ × ℚ)) :
    List.Sorted sellRel (sortSellOrders l) :=
  List.Pairwise.sublist (List.take_sublist _ _) (List.sorted_insertionSort sellRel l)

theorem depthSide_ok_shape (data : JVal) (k : String)
    (sortAndTrim : List (ℚ × ℚ) → List (ℚ × ℚ)) (res : List (ℚ × ℚ))
    (h : depthSide data k sortAndTrim = .ok res) :
    res = [] ∨ ∃ parsed, res = sortAndTrim parsed := by
  unfold depthSide at h
  split at h
  · exact absurd h (by simp)
  · simp only [Except.ok.injEq] at h
    exact Or.inl h.symm
  · split at h
    · exact absurd h (by simp)
    · split at h
      · exact absurd h (by simp)
      · simp only [Except.ok.injEq] at h
        exact Or.inr ⟨_, h.symm⟩
    · simp only [Except.ok.injEq] at h
      exact Or.inl h.symm

theorem depthStage_buy_shape (resp : Except HttpErr JVal) (ob : OrderBooks)
    (h : depthStage resp = .ok ob) :
    (ob.buy_orders = [] ∨ ∃ parsed, ob.buy_orders = sortBuyOrders parsed) ∧
    (ob.sell_orders = [] ∨ ∃ parsed, ob.sell_orders = sortSellOrders parsed) := by
  unfold depthStage at h
  split at h
  · split at h
    · simp only [Except.ok.injEq] at h
      subst h
      exact ⟨Or.inl rfl, Or.inl rfl⟩
    · exact absurd h (by simp)
  · rename_i data
    split at h
    · split at h
      · simp only [Except.ok.injEq] at h
        subst h
        exact ⟨Or.inl rfl, Or.inl rfl⟩
      · exact absurd h (by simp)
    · rename_i buys hb
      split at h
      · split at h
        · simp only [Except.ok.injEq] at h
          subst h
          exact ⟨(depthSide_ok_shape data "buy" sortBuyOrders buys hb).imp id
              (fun hp => hp), Or.inl rfl⟩
        · exact absurd h (by simp)
      · rename_i sells hs
        simp only [Except.ok.injEq] at h
        subst h
        exact ⟨(depthSide_ok_shape data "buy" sortBuyOrders buys hb).imp id
            (fun hp => hp),
          (depthSide_ok_shape data "sell" sortSellOrders sells hs).imp id
            (fun hp => hp)⟩

/-- C5: every payload the fetcher caches has `buy_orders` sorted
non-increasing by price, `sell_orders` sorted non-decreasing by price, and
both sides of length at most `ORDER_BOOK_LIMIT`. -/
theorem order_book_sorted_bounded (inp : FetchInput) (symbol : String)
    (send : Client → SendOutcome) (reg : List Client) (p : Payload)
    (h : (fetch_and_broadcast_data inp symbol send reg).cacheUpdate = some p) :
    List.Sorted buyRel p.buy_orders ∧ p.buy_orders.length ≤ ORDER_BOOK_LIMIT ∧
    List.Sorted sellRel p.sell_orders ∧ p.sell_orders.length ≤ ORDER_BOOK_LIMIT := by
  unfold fetch_and_broadcast_data at h
  rcases hts : tickerStage inp.tickerResp with e | o <;> rw [hts] at h
  · exact absurd h (by simp)
  · rcases o with _ | t
    · exact absurd h (by simp)
    · rcases hds : depthStage inp.depthResp with e | ob <;> rw [hds] at h
      · exact absurd h (by simp)
      · obtain rfl : assemblePayload symbol t ob inp.now = p := by simpa using h
        obtain ⟨hbuy, hsell⟩ := depthStage_buy_shape inp.depthResp ob hds
        refine ⟨?_, ?_, ?_, ?_⟩
        · rcases hbuy with hb | ⟨parsed, hb⟩
          · simp [assemblePayload, hb]
          · simpa [assemblePayload, hb] using sortBuyOrders_sorted parsed
        · rcases hbuy with hb | ⟨parsed, hb⟩
          · simp [assemblePayload, hb]
          · simp only [assemblePayload, hb, sortBuyOrders]
            exact List.length_take_le ORDER_BOOK_LIMIT (parsed.insertionSort buyRel)
        · rcases hsell with hs | ⟨parsed, hs⟩
          · simp [assemblePayload, hs]
          · simpa [assemblePayload, hs] using sortSellOrders_sorted parsed
        · rcases hsell with hs | ⟨parsed, hs⟩
          · simp [assemblePayload, hs]
          · simp only [assemblePayload, hs, sortSellOrders]
            exact List.length_take_le ORDER_BOOK_LIMIT (parsed.insertionSort sellRel)

/-- C5 witness: a concrete fetch whose depth document holds an unsorted
`buy` list and a `sell` list; the cached payload satisfies the order-book
invariants. -/
theorem order_book_sorted_bounded_witness :
    (fetch_and_broadcast_data
        ⟨.ok (.obj [("ticker", .obj [])]),
         .ok (.obj [("buy", .arr [.arr [.num 1, .num 2], .arr [.num 3, .num 4]]),
                    ("sell", .arr [.arr [.num 5, .num 6]])]), "T"⟩
        "BTC/IDR" (fun _ => .ok) []).cacheUpdate =
      some ⟨"BTC/IDR", 0, 0, 0, "0.00", 0, [(3, 4), (1, 2)], [(5, 6)], "T"⟩ ∧
    List.Sorted buyRel [((3 : ℚ), (4 : ℚ)), (1, 2)] ∧
    ([((3 : ℚ), (4 : ℚ)), (1, 2)] : List (ℚ × ℚ)).length ≤ ORDER_BOOK_LIMIT :=
  have h := order_book_sorted_bounded
    ⟨.ok (.obj [("ticker", .obj [])]),
     .ok (.obj [("buy", .arr [.arr [.num 1, .num 2], .arr [.num 3, .num 4]]),
                ("sell", .arr [.arr [.num 5, .num 6]])]), "T"⟩
    "BTC/IDR" (fun _ => .ok) []
    ⟨"BTC/IDR", 0, 0, 0, "0.00", 0, [(3, 4), (1, 2)], [(5, 6)], "T"⟩ (by decide)
  ⟨by decide, h.1, h.2.1⟩

theorem depthFailure_degrades_empty (resp : Except HttpErr JVal)
    (h : depthFailureB resp = true) : depthStage resp = .ok ⟨[], []⟩ := by
  rcases resp with e | data
  · cases e
    · simp [depthStage, excOfHttpErr, depthHandled]
    · exact absurd h (by decide)
    · simp [depthStage, excOfHttpErr, depthHandled]
    · simp [depthStage, excOfHttpErr, depthHandled]
  · rcases data with _ | b | q | s | l | l
    · simp [depthStage, depthSide, pyIn, depthHandled]
    · simp [depthStage, depthSide, pyIn, depthHandled]
    · simp [depthStage, depthSide, pyIn, depthHandled]
    · cases hbuy : decide ((s.splitOn "buy").length ≥ 2) <;>
        cases hsell : decide ((s.splitOn "sell").length ≥ 2) <;>
        simp [depthStage, depthSide, pyIn, jIndex, depthHandled, hbuy, hsell]
    · cases hbuy : l.any fun v => match v with | .str s => "buy" == s | _ => false <;>
        cases hsell : l.any fun v => match v with | .str s => "sell" == s | _ => false <;>
        simp [depthStage, depthSide, pyIn, jIndex, depthHandled, hbuy, hsell]
    · rw [depthFailureB, Bool.and_eq_true] at h
      obtain ⟨hbuy, hsell⟩ := h
      have hBuySide : depthSide (.obj l) "buy" sortBuyOrders = .ok [] := by
        rcases hlb : l.lookup "buy" with _ | v
        · simp [depthSide, pyIn, hlb]
        · rw [hlb] at hbuy
          rcases v with _ | b | q | s | el | ol <;>
            simp_all [depthSide, pyIn, jIndex, hlb]
      have hSellSide : depthSide (.obj l) "sell" sortSellOrders = .ok [] := by
        rcases hls : l.lookup "sell" with _ | v
        · simp [depthSide, pyIn, hls]
        · rw [hls] at hsell
          rcases v with _ | b | q | s | el | ol <;>
            simp_all [depthSide, pyIn, jIndex, hls]
      simp [depthStage, hBuySide, hSellSide]

/-- C1 counterexample: the `timeout=5` total timeout on the depth request
raises `asyncio.TimeoutError`, which is neither an `aiohttp.ClientError` nor
any class the handlers of `main.py` lines 99-104 catch; it escapes to the
bare `except Exception` of line 147, so the fetch aborts with no cache write
and no publish — refuting the claim that a depth timeout still yields a
cached, published snapshot with empty book sides. -/
theorem depth_timeout_aborts_fetch :
    tickerStage (.ok (.obj [("ticker", .obj [])])) = .ok (some ⟨0, 0, 0, 0⟩) ∧
    depthStage (.error .timeout) = .error .timeoutError ∧
    fetch_and_broadcast_data ⟨.ok (.obj [("ticker", .obj [])]), .error .timeout, "T"⟩
      "BTC/IDR" (fun _ => .ok) [7] = ⟨none, none, [], [7]⟩ :=
  ⟨by decide, by decide, by decide⟩

/-- C1 (amended): when the ticker stage succeeds and the depth stage fails
with an error the depth handlers catch — network error, non-2xx status,
decode error, non-object document, or `buy`/`sell` fields missing or
non-list — the fetch still assembles a payload carrying the ticker-derived
fields with both order-book sides empty, caches it, and publishes it to the
registry snapshot.  A depth total timeout, by contrast, raises
`asyncio.TimeoutError`, which those handlers do not catch: the symbol's
fetch aborts entirely, with no cache write, no message, and no delivery
attempt (last conjunct). -/
theorem depth_failure_degrades_gracefully (inp : FetchInput) (symbol : String)
    (send : Client → SendOutcome) (reg : List Client) (t : TickerNums)
    (hTicker : tickerStage inp.tickerResp = .ok (some t))
    (hDepth : depthFailureB inp.depthResp = true) :
    fetch_and_broadcast_data inp symbol send reg =
      { cacheUpdate := some (assemblePayload symbol t ⟨[], []⟩ inp.now)
        message := some (jsonDumpsPayload (assemblePayload symbol t ⟨[], []⟩ inp.now))
        attempted := (broadcastLoop send reg reg).attempted
        registry := (broadcastLoop send reg reg).registry } ∧
    (assemblePayload symbol t ⟨[], []⟩ inp.now).buy_orders = [] ∧
    (assemblePayload symbol t ⟨[], []⟩ inp.now).sell_orders = [] ∧
    (assemblePayload symbol t ⟨[], []⟩ inp.now).price = t.last ∧
    (assemblePayload symbol t ⟨[], []⟩ inp.now).high_price = t.high ∧
    (assemblePayload symbol t ⟨[], []⟩ inp.now).low_price = t.low ∧
    (assemblePayload symbol t ⟨[], []⟩ inp.now).volume_24h = t.volume ∧
    (∀ inpT : FetchInput, inpT.depthResp = .error .timeout →
      fetch_and_broadcast_data inpT symbol send reg = ⟨none, none, [], reg⟩) := by
  refine ⟨?_, rfl, rfl, rfl, rfl, rfl, rfl, ?_⟩
  · rw [fetch_and_broadcast_data, hTicker, depthFailure_degrades_empty inp.depthResp hDepth]
  · intro inpT hresp
    unfold fetch_and_broadcast_data
    rcases hts : tickerStage inpT.tickerResp with e | o
    · simp [hts]
    · rcases o with _ | tT
      · simp [hts]
      · rw [hresp]
        simp [hts, depthStage, excOfHttpErr, depthHandled]

/-- C1 witness: ticker succeeds with zero fields while the depth endpoint
answers with a non-2xx status (HTTP 500); the fetch caches and publishes a
payload with empty books, and the timeout conjunct applies to a concrete
timed-out input. -/
theorem depth_failure_degrades_gracefully_witness :
    fetch_and_broadcast_data ⟨.ok (.obj [("ticker", .obj [])]), .error .httpStatus, "T"⟩
        "BTC/IDR" (fun _ => .ok) [7] =
      { cacheUpdate :=
          some (assemblePayload "BTC/IDR" ⟨0, 0, 0, 0⟩ ⟨[], []⟩ "T")
        message :=
          some (jsonDumpsPayload (assemblePayload "BTC/IDR" ⟨0, 0, 0, 0⟩ ⟨[], []⟩ "T"))
        attempted := (broadcastLoop (fun _ => .ok) [7] [7]).attempted
        registry := (broadcastLoop (fun _ => .ok) [7] [7]).registry } ∧
    (assemblePayload "BTC/IDR" ⟨0, 0, 0, 0⟩ ⟨[], []⟩ "T").buy_orders = [] ∧
    (assemblePayload "BTC/IDR" ⟨0, 0, 0, 0⟩ ⟨[], []⟩ "T").sell_orders = [] ∧
    fetch_and_broadcast_data ⟨.ok (.obj [("ticker", .obj [])]), .error .timeout, "T"⟩
      "BTC/IDR" (fun _ => .ok) [7] = ⟨none, none, [], [7]⟩ :=
  have h := depth_failure_degrades_gracefully
    ⟨.ok (.obj [("ticker", .obj [])]), .error .httpStatus, "T"⟩
    "BTC/IDR" (fun _ => .ok) [7] ⟨0, 0, 0, 0⟩ (by decide) (by decide)
  ⟨h.1, h.2.1, h.2.2.1,
    h.2.2.2.2.2.2.2 ⟨.ok (.obj [("ticker", .obj [])]), .error .timeout, "T"⟩ rfl⟩

theorem pyFloat_error_handled (v : JVal) (e : PyExc) (h : pyFloat v = .error e) :
    depthHandled e = true := by
  rcases v with _ | b | q | s | l | l <;> simp [pyFloat] at h <;> try simp [h.symm, depthHandled]
  · rcases hp : parseDecimal s with _ | q <;> rw [hp] at h
    · simp only [Except.error.injEq] at h
      simp [h.symm, depthHandled]
    · exact absurd h (by simp)

theorem except_bind_ok {ε α β : Type} (a : α) (f : α → Except ε β) :
    (Except.ok a >>= f) = f a := rfl

theorem except_bind_error {ε α β : Type} (e : ε) (f : α → Except ε β) :
    ((Except.error e : Except ε α) >>= f) = .error e := rfl

theorem parseOrder_error_handled (v : JVal) (e : PyExc) (h : parseOrder v = .error e) :
    depthHandled e = true := by
  unfold parseOrder at h
  split at h
  · rename_i pv av
    rcases hp : pyFloat pv with e1 | p
    · rw [hp, except_bind_error] at h
      simp only [Except.error.injEq] at h
      exact h ▸ pyFloat_error_handled pv e1 hp
    · rw [hp, except_bind_ok] at h
      rcases ha : pyFloat av with e2 | a
      · rw [ha, except_bind_error] at h
        simp only [Except.error.injEq] at h
        exact h ▸ pyFloat_error_handled av e2 ha
      · rw [ha, except_bind_ok] at h
        exact absurd h (by simp)
  · simp only [Except.error.injEq] at h
    simp [h.symm, depthHandled]
  · simp only [Except.error.injEq] at h
    simp [h.symm, depthHandled]

theorem mapM_parseOrder_error_handled (l : List JVal) (e : PyExc)
    (h : l.mapM parseOrder = .error e) : depthHandled e = true := by
  induction l with
  | nil =>
    rw [List.mapM_nil] at h
    exact absurd h (by simp [pure, Except.pure])
  | cons a rest ih =>
    rw [List.mapM_cons] at h
    rcases hp : parseOrder a with e1 | p
    · rw [hp, except_bind_error] at h
      simp only [Except.error.injEq] at h
      exact h ▸ parseOrder_error_handled a e1 hp
    · rw [hp, except_bind_ok] at h
      rcases hr : rest.mapM parseOrder with e2 | bs
      · rw [hr, except_bind_error] at h
        simp only [Except.error.injEq] at h
        exact ih (h ▸ hr)
      · rw [hr, except_bind_ok] at h
        exact absurd h (by simp [pure, Except.pure])

theorem depthSide_obj_arr (l : List (String × JVal)) (k : String) (entries : List JVal)
    (sortAndTrim : List (ℚ × ℚ) → List (ℚ × ℚ))
    (hl : l.lookup k = some (.arr entries)) :
    depthSide (.obj l) k sortAndTrim =
      match entries.mapM parseOrder with
      | .error e => .error e
      | .ok parsed => .ok (sortAndTrim parsed) := by
  unfold depthSide
  simp only [pyIn, jIndex, hl, Option.isSome_some]

/-- C10: depth-side degradation is asymmetric under element parse failures.
If an entry of the `buy` list fails parsing or unpacking, the raised
exception skips the `sell` block and both sides end up empty; if `buy`
parses fully and a `sell` entry then fails, the payload keeps the sorted
`buy` side with an empty `sell` side. -/
theorem depth_entry_parse_asymmetry (bl sl : List JVal) (e : PyExc) :
    (bl.mapM parseOrder = .error e →
      depthStage (.ok (.obj [("buy", .arr bl), ("sell", .arr sl)])) = .ok ⟨[], []⟩) ∧
    (∀ bs, bl.mapM parseOrder = .ok bs → sl.mapM parseOrder = .error e →
      depthStage (.ok (.obj [("buy", .arr bl), ("sell", .arr sl)])) =
        .ok ⟨sortBuyOrders bs, []⟩) := by
  constructor
  · intro h1
    have hside : depthSide (.obj [("buy", .arr bl), ("sell", .arr sl)]) "buy" sortBuyOrders
        = .error e := by
      rw [depthSide_obj_arr [("buy", .arr bl), ("sell", .arr sl)] "buy" bl sortBuyOrders
        (by rfl), h1]
    simp [depthStage, hside, mapM_parseOrder_error_handled bl e h1]
  · intro bs h1 h2
    have hbuy : depthSide (.obj [("buy", .arr bl), ("sell", .arr sl)]) "buy" sortBuyOrders
        = .ok (sortBuyOrders bs) := by
      rw [depthSide_obj_arr [("buy", .arr bl), ("sell", .arr sl)] "buy" bl sortBuyOrders
        (by rfl), h1]
    have hsell : depthSide (.obj [("buy", .arr bl), ("sell", .arr sl)]) "sell" sortSellOrders
        = .error e := by
      rw [depthSide_obj_arr [("buy", .arr bl), ("sell", .arr sl)] "sell" sl sortSellOrders
        (by rfl), h2]
    simp [depthStage, hbuy, hsell, mapM_parseOrder_error_handled sl e h2]

/-- C10 witness: a `buy` entry with a non-numeric price empties both sides;
a failing `sell` entry after a clean `buy` keeps the parsed buys. -/
theorem depth_entry_parse_asymmetry_witness :
    ([JVal.arr [.str "x", .num 1]].mapM parseOrder =
      (.error .valueError : Except PyExc (List (ℚ × ℚ)))) ∧
    depthStage (.ok (.obj [("buy", .arr [JVal.arr [.str "x", .num 1]]), ("sell", .arr [])]))
      = .ok ⟨[], []⟩ ∧
    ([JVal.arr [.num 3, .num 4]].mapM parseOrder =
      (.ok [((3 : ℚ), (4 : ℚ))] : Except PyExc (List (ℚ × ℚ)))) ∧
    ([JVal.arr [.num 1]].mapM parseOrder =
      (.error .valueError : Except PyExc (List (ℚ × ℚ)))) ∧
    depthStage
        (.ok (.obj [("buy", .arr [JVal.arr [.num 3, .num 4]]),
                    ("sell", .arr [JVal.arr [.num 1]])]))
      = .ok ⟨sortBuyOrders [(3, 4)], []⟩ := by
  refine ⟨by decide, ?_, by decide, by decide, ?_⟩
  · exact (depth_entry_parse_asymmetry [JVal.arr [.str "x", .num 1]] [] .valueError).1
      (by decide)
  · exact (depth_entry_parse_asymmetry [JVal.arr [.num 3, .num 4]] [JVal.arr [.num 1]]
      .valueError).2 [(3, 4)] (by decide) (by decide)

/-- C4: the percentage-change heuristic of the source — `(last-low)/low*100`
when `last>0` and `low>0`, else `(last-high)/high*100` when `last>0` and
`high>0`, else `0` — lands in the payload as a string with exactly two
decimal places; on the concrete inputs of the spec it yields `"10.00"`,
`"-8.33"` and `"0.00"`. -/
theorem percentage_change_formula (last high low : ℚ) :
    (0 < last → 0 < low → percentageChange last high low = (last - low) / low * 100) ∧
    (0 < last → ¬ 0 < low → 0 < high →
      percentageChange last high low = (last - high) / high * 100) ∧
    (¬ 0 < last ∨ (¬ 0 < low ∧ ¬ 0 < high) → percentageChange last high low = 0) ∧
    (∀ (symbol : String) (t : TickerNums) (ob : OrderBooks) (now : String),
      (assemblePayload symbol t ob now).percentage_change =
        formatTwoDec (percentageChange t.last t.high t.low)) ∧
    formatTwoDec (percentageChange 110 120 100) = "10.00" ∧
    formatTwoDec (percentageChange 110 120 0) = "-8.33" ∧
    formatTwoDec (percentageChange 0 0 0) = "0.00" := by
  refine ⟨?_, ?_, ?_, fun _ _ _ _ => rfl, ?_, ?_, by decide⟩
  · intro h1 h2
    simp [percentageChange, h1, h2]
  · intro h1 h2 h3
    rw [percentageChange, if_neg (fun hand => h2 hand.2), if_pos ⟨h1, h3⟩]
  · intro h
    rcases h with h1 | ⟨h2, h3⟩
    · rw [percentageChange, if_neg (fun hand => h1 hand.1),
        if_neg (fun hand => h1 hand.1)]
    · rw [percentageChange, if_neg (fun hand => h2 hand.2),
        if_neg (fun hand => h3 hand.2)]
  · have e1 : percentageChange 110 120 100 = 10 := by norm_num [percentageChange]
    rw [e1]
    decide
  · have e2 : percentageChange 110 120 0 = Rat.mk' (-25) 3 (by decide) (by decide) := by
      rw [Rat.mk'_eq_divInt, Rat.divInt_eq_div]
      norm_num [percentageChange]
    rw [e2]
    decide

/-- C4 witness: the first branch applied at `last = 110`, `low = 100`,
`high = 120`. -/
theorem percentage_change_formula_witness :
    (0 : ℚ) < 110 ∧ (0 : ℚ) < 100 ∧
    percentageChange 110 120 100 = ((110 : ℚ) - 100) / 100 * 100 :=
  ⟨by decide, by decide,
    (percentage_change_formula 110 120 100).1 (by decide) (by decide)⟩

theorem lookup_isSome_iff_mem_cacheKeys (c : Cache) (s : String) :
    (c.lookup s).isSome = true ↔ s ∈ cacheKeys c := by
  induction c with
  | nil => simp [cacheKeys]
  | cons kv rest ih =>
    rcases kv with ⟨k, v⟩
    have hck : cacheKeys ((k, v) :: rest) = k :: cacheKeys rest := rfl
    rw [hck]
    by_cases hk : s = k
    · subst hk
      simp [List.lookup]
    · have hbeq : (s == k) = false := beq_eq_false_iff_ne.mpr hk
      simp only [List.lookup, hbeq]
      rw [ih]
      simp [hk]

theorem cacheKeys_dictSet (c : Cache) (k : String) (v : Option Payload)
    (h : k ∈ cacheKeys c) : cacheKeys (dictSet c k v) = cacheKeys c := by
  rw [dictSet, if_pos ((lookup_isSome_iff_mem_cacheKeys c k).mpr h)]
  rw [cacheKeys, cacheKeys, List.map_map]
  apply List.map_congr_left
  intro kv _
  by_cases hkv : kv.1 = k
  · simp [hkv]
  · simp [hkv]

theorem cacheKeys_initCache : cacheKeys initCache = CURRENCY_PAIRS := by decide

theorem cacheKeys_applyUpdates (us : List (String × Payload)) :
    ∀ c : Cache, cacheKeys c = CURRENCY_PAIRS → (∀ u ∈ us, u.1 ∈ CURRENCY_PAIRS) →
      cacheKeys (applyUpdates c us) = CURRENCY_PAIRS := by
  induction us with
  | nil => exact fun c hc _ => hc
  | cons u rest ih =>
    intro c hc hu
    rw [applyUpdates, List.foldl_cons]
    have hk : cacheKeys (dictSet c u.1 (some u.2)) = CURRENCY_PAIRS := by
      rw [cacheKeys_dictSet c u.1 (some u.2)
        (by rw [hc]; exact hu u (List.mem_cons_self u rest))]
      exact hc
    exact ih (dictSet c u.1 (some u.2)) hk (fun x hx => hu x (List.mem_cons_of_mem u hx))

/-- C8: starting from the initialized cache, any sequence of per-symbol
writes with configured symbols keeps the key set exactly equal to
`CURRENCY_PAIRS` — nothing is ever added outside the list or removed — so
indexing the cache with a configured symbol never raises `KeyError`. -/
theorem cache_keys_invariant (us : List (String × Payload))
    (h : ∀ u ∈ us, u.1 ∈ CURRENCY_PAIRS) :
    cacheKeys (applyUpdates initCache us) = CURRENCY_PAIRS ∧
    ∀ s ∈ CURRENCY_PAIRS, ((applyUpdates initCache us).lookup s).isSome = true := by
  have hkeys := cacheKeys_applyUpdates us initCache cacheKeys_initCache h
  exact ⟨hkeys, fun s hs =>
    (lookup_isSome_iff_mem_cacheKeys _ s).mpr (hkeys.symm ▸ hs)⟩

/-- C8 witness: one fetch cycle writing `ETH/IDR` keeps the key set equal to
the configured list, and the written symbol stays indexable. -/
theorem cache_keys_invariant_witness :
    cacheKeys (applyUpdates initCache
      [("ETH/IDR", ⟨"ETH/IDR", 0, 0, 0, "0.00", 0, [], [], "T"⟩)]) = CURRENCY_PAIRS ∧
    ((applyUpdates initCache
      [("ETH/IDR", ⟨"ETH/IDR", 0, 0, 0, "0.00", 0, [], [], "T"⟩)]).lookup
        "ETH/IDR").isSome = true :=
  have h := cache_keys_invariant
    [("ETH/IDR", ⟨"ETH/IDR", 0, 0, 0, "0.00", 0, [], [], "T"⟩)] (by decide)
  ⟨h.1, h.2 "ETH/IDR" (by decide)⟩

theorem replayMessagesFrom_eq (c : Cache) (syms : List String)
    (h : ∀ s ∈ syms, (c.lookup s).isSome = true) :
    replayMessagesFrom c syms =
      .ok (syms.filterMap (fun s => (c.lookup s).bind (fun v => v.map jsonDumpsPayload))) := by
  induction syms with
  | nil => rfl
  | cons s rest ih =>
    have hs := h s (List.mem_cons_self s rest)
    rcases hv : c.lookup s with _ | v
    · rw [hv] at hs
      exact absurd hs (by simp)
    · have hstep : replayStep c s = .ok (v.map jsonDumpsPayload) := by
        simp [replayStep, hv]
      have hrest := ih (fun x hx => h x (List.mem_cons_of_mem s hx))
      rcases v with _ | p
      · simp [replayMessagesFrom, hstep, hrest, List.filterMap_cons, hv]
      · simp [replayMessagesFrom, hstep, hrest, List.filterMap_cons, hv]

theorem Interleaving.left_sublist {xs ys tr : List String} (h : Interleaving xs ys tr) :
    xs.Sublist tr := by
  induction h with
  | nil => exact List.Sublist.refl []
  | replay m _ ih => exact ih.cons₂ m
  | live m _ ih => exact ih.cons m

theorem Interleaving.right_sublist {xs ys tr : List String} (h : Interleaving xs ys tr) :
    ys.Sublist tr := by
  induction h with
  | nil => exact List.Sublist.refl []
  | replay m _ ih => exact ih.cons m
  | live m _ ih => exact ih.cons₂ m

theorem Interleaving.length_eq {xs ys tr : List String} (h : Interleaving xs ys tr) :
    tr.length = xs.length + ys.length := by
  induction h with
  | nil => rfl
  | replay m _ ih => simp [List.length_cons, ih]; omega
  | live m _ ih => simp [List.length_cons, ih]; omega

theorem interleaving_append (xs ys : List String) : Interleaving xs ys (xs ++ ys) := by
  induction xs with
  | nil =>
    induction ys with
    | nil => exact .nil
    | cons y ys ih => exact .live y ih
  | cons x xs ih => exact .replay x ih

set_option maxRecDepth 4000 in
/-- C7 counterexample: the subscriber joins `connected_clients`
(`main.py` line 185) before the replay loop (lines 189-191) runs, and each
replay `send_text` is an await point, so a concurrent broadcast can deliver
a live-cycle message to the client before a replay message: the trace with
the live message first is a possible endpoint trace, refuting the claim that
every replay message arrives before any live-cycle message. -/
theorem live_message_may_precede_replay :
    websocketEndpointTrace
      [("BTC/IDR", some ⟨"BTC/IDR", 0, 0, 0, "0.00", 0, [], [], "T"⟩),
       ("USDT/IDR", none), ("ETH/IDR", none), ("DOGE/IDR", none),
       ("XRP/IDR", none), ("ETC/IDR", none), ("ADA/IDR", none), ("SOL/IDR", none)]
      ["LIVE"]
      ["LIVE", jsonDumpsPayload ⟨"BTC/IDR", 0, 0, 0, "0.00", 0, [], [], "T"⟩] ∧
    ["LIVE", jsonDumpsPayload ⟨"BTC/IDR", 0, 0, 0, "0.00", 0, [], [], "T"⟩] ≠
      [jsonDumpsPayload ⟨"BTC/IDR", 0, 0, 0, "0.00", 0, [], [], "T"⟩, "LIVE"] :=
  ⟨⟨[jsonDumpsPayload ⟨"BTC/IDR", 0, 0, 0, "0.00", 0, [], [], "T"⟩],
    by decide,
    Interleaving.live "LIVE" (Interleaving.replay _ Interleaving.nil)⟩,
   by decide⟩

/-- C7 (amended): with the cache keys equal to the configured list (the C8
invariant), every possible trace a new connection receives during replay
contains exactly one message per symbol holding a cached payload, in
configured symbol order (as a subsequence of the trace), skipping symbols
with no cached payload, together with the live-cycle messages in broadcast
order and nothing else; the replay-then-live trace is one possible trace,
but live messages are not forced to come after the replay, since the
subscriber is registered before the replay loop runs. -/
theorem replay_per_cached_symbol_in_order (c : Cache) (live trace : List String)
    (hKeys : cacheKeys c = CURRENCY_PAIRS)
    (hTrace : websocketEndpointTrace c live trace) :
    replayMessages c = .ok (CURRENCY_PAIRS.filterMap
      (fun s => (c.lookup s).bind (fun v => v.map jsonDumpsPayload))) ∧
    (CURRENCY_PAIRS.filterMap
      (fun s => (c.lookup s).bind (fun v => v.map jsonDumpsPayload))).Sublist trace ∧
    live.Sublist trace ∧
    trace.length = (CURRENCY_PAIRS.filterMap
      (fun s => (c.lookup s).bind (fun v => v.map jsonDumpsPayload))).length + live.length ∧
    websocketEndpointTrace c live
      ((CURRENCY_PAIRS.filterMap
        (fun s => (c.lookup s).bind (fun v => v.map jsonDumpsPayload))) ++ live) := by
  have hAll : ∀ s ∈ CURRENCY_PAIRS, (c.lookup s).isSome = true :=
    fun s hs => (lookup_isSome_iff_mem_cacheKeys c s).mpr (hKeys.symm ▸ hs)
  have hmsgs : replayMessages c = .ok (CURRENCY_PAIRS.filterMap
      (fun s => (c.lookup s).bind (fun v => v.map jsonDumpsPayload))) :=
    replayMessagesFrom_eq c CURRENCY_PAIRS hAll
  obtain ⟨ms, hms, hint⟩ := hTrace
  have hEq : ms = CURRENCY_PAIRS.filterMap
      (fun s => (c.lookup s).bind (fun v => v.map jsonDumpsPayload)) :=
    Except.ok.inj (hms.symm.trans hmsgs)
  subst hEq
  exact ⟨hmsgs, hint.left_sublist, hint.right_sublist, hint.length_eq,
    ⟨_, hmsgs, interleaving_append _ live⟩⟩

set_option maxRecDepth 4000 in
/-- C7 witness: a cache holding one payload (for the first configured
symbol) and one live message, at the replay-then-live trace; the trace
contains exactly that payload's serialization followed by the live
message. -/
theorem replay_per_cached_symbol_in_order_witness :
    replayMessages
      [("BTC/IDR", some ⟨"BTC/IDR", 0, 0, 0, "0.00", 0, [], [], "T"⟩),
       ("USDT/IDR", none), ("ETH/IDR", none), ("DOGE/IDR", none),
       ("XRP/IDR", none), ("ETC/IDR", none), ("ADA/IDR", none), ("SOL/IDR", none)]
      = .ok [jsonDumpsPayload ⟨"BTC/IDR", 0, 0, 0, "0.00", 0, [], [], "T"⟩] ∧
    List.Sublist ["LIVE"]
      [jsonDumpsPayload ⟨"BTC/IDR", 0, 0, 0, "0.00", 0, [], [], "T"⟩, "LIVE"] :=
  have h := replay_per_cached_symbol_in_order
    [("BTC/IDR", some ⟨"BTC/IDR", 0, 0, 0, "0.00", 0, [], [], "T"⟩),
     ("USDT/IDR", none), ("ETH/IDR", none), ("DOGE/IDR", none),
     ("XRP/IDR", none), ("ETC/IDR", none), ("ADA/IDR", none), ("SOL/IDR", none)]
    ["LIVE"]
    [jsonDumpsPayload ⟨"BTC/IDR", 0, 0, 0, "0.00", 0, [], [], "T"⟩, "LIVE"]
    (by decide)
    ⟨[jsonDumpsPayload ⟨"BTC/IDR", 0, 0, 0, "0.00", 0, [], [], "T"⟩],
     by decide,
     interleaving_append
       [jsonDumpsPayload ⟨"BTC/IDR", 0, 0, 0, "0.00", 0, [], [], "T"⟩] ["LIVE"]⟩
  ⟨h.1.trans (by decide), h.2.2.1⟩

theorem lookup_map_replace (c : Cache) (k : String) (v : Option Payload) :
    (c.map (fun kv => if kv.1 = k then (k, v) else kv)).lookup k
      = (c.lookup k).map (fun _ => v) := by
  induction c with
  | nil => rfl
  | cons kv rest ih =>
    simp only [List.map_cons]
    by_cases hkv : kv.1 = k
    · rw [if_pos hkv]
      have hbeq : (k == kv.1) = true := by simp [hkv]
      simp [List.lookup, hbeq]
    · rw [if_neg hkv]
      have hbeq : (k == kv.1) = false := beq_eq_false_iff_ne.mpr (fun h => hkv h.symm)
      simp [List.lookup, hbeq, ih]

theorem lookup_append_single (c : Cache) (k : String) (v : Option Payload)
    (h : c.lookup k = none) : (c ++ [(k, v)]).lookup k = some v := by
  induction c with
  | nil => simp [List.lookup]
  | cons kv rest ih =>
    by_cases hkv : k = kv.1
    · exfalso
      have hbeq : (k == kv.1) = true := by simp [hkv]
      simp [List.lookup, hbeq] at h
    · have hbeq : (k == kv.1) = false := beq_eq_false_iff_ne.mpr hkv
      simp only [List.lookup, hbeq] at h
      simp only [List.cons_append, List.lookup, hbeq]
      exact ih h

theorem lookup_dictSet_self (c : Cache) (k : String) (v : Option Payload) :
    (dictSet c k v).lookup k = some v := by
  rw [dictSet]
  rcases hv : c.lookup k with _ | w
  · rw [if_neg (by simp [hv])]
    exact lookup_append_single c k v hv
  · rw [if_pos (by simp [hv]), lookup_map_replace, hv]
    rfl

/-- C9: the message a late joiner receives on replay for a symbol is the
serialization of exactly the payload object the fetcher cached, which is
also the message the live broadcast sent for that snapshot: both code paths
serialize the same payload with the same `json.dumps`. -/
theorem replay_equals_live_broadcast (inp : FetchInput) (symbol : String)
    (send : Client → SendOutcome) (reg : List Client) (p : Payload) (m : String) (c : Cache)
    (h1 : (fetch_and_broadcast_data inp symbol send reg).cacheUpdate = some p)
    (h2 : (fetch_and_broadcast_data inp symbol send reg).message = some m) :
    m = jsonDumpsPayload p ∧
    replayStep (dictSet c symbol (some p)) symbol = .ok (some m) := by
  have hm : m = jsonDumpsPayload p := by
    unfold fetch_and_broadcast_data at h1 h2
    rcases hts : tickerStage inp.tickerResp with e | o <;> rw [hts] at h1 h2
    · exact absurd h1 (by simp)
    · rcases o with _ | t
      · exact absurd h1 (by simp)
      · rcases hds : depthStage inp.depthResp with e | ob <;> rw [hds] at h1 h2
        · exact absurd h1 (by simp)
        · simp only [Option.some.injEq] at h1 h2
          rw [← h1, ← h2]
  refine ⟨hm, ?_⟩
  simp [replayStep, lookup_dictSet_self, hm]

set_option maxRecDepth 4000 in
/-- C9 witness: a fetch with empty depth caches a payload and broadcasts its
serialization; replaying the cache for that symbol yields the same message. -/
theorem replay_equals_live_broadcast_witness :
    jsonDumpsPayload ⟨"BTC/IDR", 0, 0, 0, "0.00", 0, [], [], "T"⟩
      = jsonDumpsPayload ⟨"BTC/IDR", 0, 0, 0, "0.00", 0, [], [], "T"⟩ ∧
    replayStep
      (dictSet [] "BTC/IDR" (some ⟨"BTC/IDR", 0, 0, 0, "0.00", 0, [], [], "T"⟩))
      "BTC/IDR"
      = .ok (some (jsonDumpsPayload ⟨"BTC/IDR", 0, 0, 0, "0.00", 0, [], [], "T"⟩)) :=
  replay_equals_live_broadcast
    ⟨.ok (.obj [("ticker", .obj [])]), .ok (.obj []), "T"⟩ "BTC/IDR" (fun _ => .ok) []
    ⟨"BTC/IDR", 0, 0, 0, "0.00", 0, [], [], "T"⟩
    (jsonDumpsPayload ⟨"BTC/IDR", 0, 0, 0, "0.00", 0, [], [], "T"⟩) []
    (by decide) (by decide)
